import Mathlib

/-!
Verification of the hlld core against its natural-language specification.

The development shallowly embeds the C sources (src/bitmap.c, src/config.c,
src/set.c, src/set_manager.c) as pure Lean functions.  File-system and
syscall effects are made explicit: every operation that performs I/O takes
an explicit environment describing the outcomes of the individual syscalls
(pwrite, fsync, open, ...) and returns the observable effects (bytes
written, resulting file sizes) alongside its C return value.  Machine
integers are modelled as Nat/Int (all the quantities involved stay far
from any overflow boundary, and the one place where a width mismatch
matters - strtoll reading a uint64 - is modelled explicitly).  C doubles
are modelled as exact rationals; the one irrational family of values
(the per-precision error bound 1.04 / sqrt(2^p)) is represented by its
square, which is rational.

Functions whose implementation file (hll.c) is not part of the sources,
and that are only declared in hll.h, are modelled from the specification
and carry a doc comment saying so.
-/

namespace Hlld

/-! ## Bitmap layer (src/bitmap.c)

The bitmap buffer contents are irrelevant to the claims about flushing
and opening; what matters is which byte ranges of the backing file get
written, and the return codes.  A flush environment lists the successive
results of the pwrite calls (a nonnegative entry is a byte count actually
written, a negative entry is -errno for a failing call; the EINTR retry
branch of the C loop is not modelled since the claims do not involve
EINTR) together with the outcomes of msync and fsync. -/

/-- Backing modes of a bitmap, from bitmap.h.  The NEW_BITMAP flag that
the C code ors into the mode is modelled as a separate boolean. -/
inductive bitmap_mode where
  | ANONYMOUS : bitmap_mode
  | SHARED : bitmap_mode
  | PERSISTENT : bitmap_mode
deriving DecidableEq

/-- The observable part of struct hlld_bitmap: its mode, its byte length,
and whether the mmap pointer is non-null. -/
structure hlld_bitmap where
  mode : bitmap_mode
  size : Nat
  has_mmap : Bool
deriving DecidableEq

/-- Outcomes of the syscalls performed by bitmap_flush: the successive
pwrite results (value at least 0 = bytes written, negative = -errno with
errno distinct from EINTR), and the errno of msync / fsync when they
fail (none = success). -/
structure FlushEnv where
  pwrites : List Int
  msync_errno : Option Nat
  fsync_errno : Option Nat
deriving DecidableEq

/-- A chunk (offset, length) of the file successfully written by pwrite. -/
abbrev Chunk := Int × Int

/-- The while loop of flush_page in bitmap.c: keep issuing pwrite for the
remaining bytes of the page until should_write bytes are written, return
-errno on a failing write.  Consumes one environment entry per pwrite.
If the environment runs out while bytes remain, the result is -1000
(standing in for a loop that the C code would never exit); the
environments used below always supply enough outcomes. -/
def flush_page_loop (base total should_write : Int) :
    List Int → Int × List Int × List Chunk
  | [] => if total < should_write then (-1000, [], []) else (0, [], [])
  | r :: rest =>
    if total < should_write then
      if r < 0 then (r, rest, [])
      else
        let next := flush_page_loop base (total + r) should_write rest
        (next.1, next.2.1, (base + total, r) :: next.2.2)
    else (0, r :: rest, [])

/-- flush_page from bitmap.c: writes one 4096-byte page (the last page
possibly short) at its offset.  Returns the C return value, the unused
remainder of the write environment, and the chunks actually written. -/
def flush_page (map : hlld_bitmap) (page : Nat) (size : Nat) (max_page : Nat)
    (writes : List Int) : Int × List Int × List Chunk :=
  let offset : Int := (page : Int) * 4096
  let should_write : Int :=
    if page = max_page ∧ size % 4096 ≠ 0 then (size % 4096 : Nat) else 4096
  flush_page_loop offset 0 should_write writes

/-- flush_all_pages from bitmap.c.  Faithful to the source: the loop body
overwrites res with the result of each flush_page call and only the value
left after the final iteration is returned, so an error from a non-final
page is lost when a later page succeeds. -/
def flush_all_pages (map : hlld_bitmap) (writes : List Int) : Int × List Chunk :=
  let pages := map.size / 4096 + (if map.size % 4096 ≠ 0 then 1 else 0)
  let out := (List.range pages).foldl
    (fun (acc : Int × List Int × List Chunk) i =>
      let step := flush_page map i map.size (pages - 1) acc.2.1
      (step.1, step.2.1, acc.2.2 ++ step.2.2))
    (0, writes, [])
  (out.1, out.2.2)

/-- bitmap_flush from bitmap.c: no-op for ANONYMOUS or a null mmap,
msync + fsync for SHARED, flush_all_pages + fsync for PERSISTENT.
Returns the C return value and the chunks written to the file. -/
def bitmap_flush (map : hlld_bitmap) (env : FlushEnv) : Int × List Chunk :=
  if map.mode = bitmap_mode.ANONYMOUS ∨ map.has_mmap = false then (0, [])
  else if map.mode = bitmap_mode.SHARED then
    match env.msync_errno with
    | some e => (-(e : Int), [])
    | none =>
      match env.fsync_errno with
      | some e => (-(e : Int), [])
      | none => (0, [])
  else
    let flushed := flush_all_pages map env.pwrites
    if flushed.1 ≠ 0 then flushed
    else
      match env.fsync_errno with
      | some e => (-(e : Int), flushed.2)
      | none => (0, flushed.2)

/-- Whether byte index b of the file is covered by one of the written
chunks. -/
def chunk_covers (chunks : List Chunk) (b : Int) : Prop :=
  ∃ c ∈ chunks, c.1 ≤ b ∧ b < c.1 + c.2

instance (chunks : List Chunk) (b : Int) : Decidable (chunk_covers chunks b) := by
  unfold chunk_covers; infer_instance

/-! ## Opening bitmaps (bitmap_from_file / bitmap_from_filename)

The file system state relevant to opening is just whether the target path
exists and, if so, its size in bytes (an Option Nat).  The environment
records whether open, mmap and the PERSISTENT read-back (fill_buffer)
fail; dup, fstat and ftruncate failures are not modelled (no claim
involves them). -/

/-- Syscall outcomes for the bitmap open path (none = success). -/
structure OpenEnv where
  open_errno : Option Nat
  mmap_errno : Option Nat
  fill_errno : Option Nat
deriving DecidableEq

/-- Environment in which every syscall succeeds. -/
def okOpenEnv : OpenEnv := ⟨none, none, none⟩

/-- bitmap_from_file from bitmap.c, for an already opened descriptor.
Only the return code matters to the claims (the resulting map structure
is determined by (mode, len)).  new_bitmap is the NEW_BITMAP flag that
bitmap_from_filename ors into the mode.  An unknown mode yields -1;
len = 0 yields -EINVAL (= -22); mmap failure yields -errno; for
PERSISTENT on an existing file, a failing read-back yields its -errno. -/
def bitmap_from_file (len : Nat) (new_bitmap : Bool) (mode : bitmap_mode)
    (env : OpenEnv) : Int :=
  if len = 0 then -22
  else
    match env.mmap_errno with
    | some e => -(e : Int)
    | none =>
      if mode = bitmap_mode.PERSISTENT ∧ new_bitmap = false then
        match env.fill_errno with
        | some e => -(e : Int)
        | none => 0
      else 0

/-- bitmap_from_filename from bitmap.c.  file is the state of the path
before the call (none = absent, some s = present with size s bytes).
Returns the C return value together with the state of the path after the
call.  Mirrors the source: open with O_CREAT when create is set (an
absent file becomes an empty one); in create mode a file of size 0 is
truncated to len and flagged NEW_BITMAP, while a file of non-zero size
different from len makes the call return -1; then bitmap_from_file runs,
and on error a NEW_BITMAP file is unlinked. -/
def bitmap_from_filename (file : Option Nat) (len : Nat) (create : Bool)
    (mode : bitmap_mode) (env : OpenEnv) : Int × Option Nat :=
  match env.open_errno with
  | some e => (-(e : Int), file)
  | none =>
    let opened : Option Nat := if file = none ∧ create then some 0 else file
    match opened with
    | none => (-2, file)
    | some sz =>
      if create ∧ sz = 0 then
        let res := bitmap_from_file len true mode env
        if res ≠ 0 then (res, none) else (res, some len)
      else if create ∧ sz ≠ len then (-1, some sz)
      else
        let res := bitmap_from_file len false mode env
        (res, some sz)

/-! ## Per-set configuration persistence (src/config.c)

update_filename_from_set_config writes the four fields with fprintf
("%llu", "%f", "%d", "%d"); set_config_from_filename re-reads them with
an INI parser whose callback uses strtoll / strtod / strtol.  C doubles
are modelled as exact rationals.  The %f conversion prints exactly six
fraction digits, correctly rounded; an exact binary double can never lie
exactly halfway between two six-digit decimals (that would require a
factor 5^6 in its denominator), so nearest-rounding is unambiguous on
the values the C code can hold and Lean's round models it faithfully. -/

/-- struct hlld_set_config from config.h (size is a uint64_t). -/
structure hlld_set_config where
  default_eps : ℚ
  default_precision : Int
  in_memory : Int
  size : Nat
deriving DecidableEq

/-- The text written to config.ini, represented by the numbers the four
printed strings denote: %llu prints size exactly, %f prints default_eps
rounded to six fraction digits, %d prints the two ints exactly. -/
structure SetConfigFile where
  size_text : Nat
  eps_text : ℚ
  precision_text : Int
  in_memory_text : Int
deriving DecidableEq

/-- Nearest-integer rounding of a rational, halves rounding up:
the floor of q + 1/2, computed as the integer division
(2 num + den) / (2 den).  (%f rounds to nearest; a binary double can
never be an exact tie at six fraction digits, so the tie direction is
immaterial for values a C double can hold.) -/
def ratRound (q : ℚ) : Int := (2 * q.num + (q.den : Int)) / (2 * (q.den : Int))

/-- The rational denoted by the %f rendering of q: q rounded to six
fraction digits. -/
def round6 (q : ℚ) : ℚ := ((ratRound (q * 1000000) : ℤ) : ℚ) / 1000000

/-- update_filename_from_set_config from config.c, as the file text it
produces (the fopen failure branch returns -errno and writes nothing;
the claims quantify over successful writes, so only the produced text is
modelled). -/
def update_filename_from_set_config (config : hlld_set_config) : SetConfigFile :=
  { size_text := config.size
    eps_text := round6 config.default_eps
    precision_text := config.default_precision
    in_memory_text := config.in_memory }

/-- value_to_int64 from config.c: strtoll parses the decimal text of a
uint64 value, saturating at LLONG_MAX = 2^63 - 1 for larger values, and
the result is stored into a uint64_t field. -/
def value_to_int64 (text : Nat) : Nat := min text (2 ^ 63 - 1)

/-- value_to_double from config.c: strtod the text; when the parsed
value is 0 the destination is left unchanged. -/
def value_to_double (text old : ℚ) : ℚ := if text = 0 then old else text

/-- set_config_from_filename from config.c reading a file produced by
update_filename_from_set_config: the INI callback set_config_callback
fires once per line, in file order (size, default_eps,
default_precision, in_memory), updating the given config record (the
function does not initialise it). -/
def set_config_from_filename (f : SetConfigFile) (config : hlld_set_config) :
    hlld_set_config :=
  let c1 := { config with size := value_to_int64 f.size_text }
  let c2 := { c1 with default_eps := value_to_double f.eps_text c1.default_eps }
  let c3 := { c2 with default_precision := f.precision_text }
  { c3 with in_memory := f.in_memory_text }

/-- The all-zero record the repository's own round-trip test reads into. -/
def zeroSetConfig : hlld_set_config := ⟨0, 0, 0, 0⟩

/-! ## Global configuration epsilon snapping (src/config.c, config_callback)

The branch of config_callback for the key default_eps calls
hll_precision_for_error and hll_error_for_precision.  Those two live in
hll.c, which is not among the sources; they are modelled from the
specification.  The value error(p) = 1.04 / sqrt(2^p) is irrational for
odd p, so epsilon values produced by the snapping are represented by
their squares, which are rational and determine them (both sides are
nonnegative). -/

/-- Modelled from the spec: hll.c is not among the sources.  The square
of error(p) = 1.04 / sqrt(2^p) for p in [HLL_MIN_PRECISION = 4,
HLL_MAX_PRECISION = 18], and 0 for out-of-range p (hll.h: "zero on
error", and the repository's tests pin error_for_precision(3) = 0 and
error_for_precision(20) = 0). -/
def hll_error_sq_for_precision (prec : Int) : ℚ :=
  if 4 ≤ prec ∧ prec ≤ 18 then (26 / 25) ^ 2 / (2 : ℚ) ^ prec else 0

/-- Modelled from the spec: hll.c is not among the sources.  The smallest
precision p in [4, 18] with error(p) ≤ err — equivalently, with
error(p)^2 ≤ err^2, since both sides are positive — or -1 for
out-of-range err (the repository's tests pin precision_for_error(1.0) =
-1 and precision_for_error(0.0) = -1).  The search is a linear scan:
prec_search err fuel p tries the fuel precisions p, p+1, ... in order,
returning the first achieving error at most err, or -1. -/
def prec_search (err : ℚ) : Nat → Int → Int
  | 0, _ => -1
  | fuel + 1, p =>
    if hll_error_sq_for_precision p ≤ err ^ 2 then p
    else prec_search err fuel (p + 1)

/-- Modelled from the spec: see prec_search. -/
def hll_precision_for_error (err : ℚ) : Int :=
  if err ≤ 0 ∨ 1 ≤ err then -1 else prec_search err 15 4

/-- The default_eps branch of config_callback (config.c lines 127-136):
the requested value is parsed, default_precision is computed from it,
and default_eps is then overwritten with the achievable bound
error_for_precision(default_precision), here represented by its square.
Returns (default_precision, default_eps squared). -/
def config_callback_default_eps (e : ℚ) : Int × ℚ :=
  let p := hll_precision_for_error e
  (p, hll_error_sq_for_precision p)

/-! ## Set layer (src/set.c)

A set owns its per-set config, proxied/dirty flags, counters, and an
HLL + bitmap when resident.  The HLL itself lives in hll.c (not among
the sources); its estimate is carried as an abstract field hll_est
holding the value hll_size would report, refreshed at fault-in and, for
an add, supplied by the caller as the estimate after the added hash
(Modelled from the spec: hll_add_hash updates one register and hll_size
recomputes the estimate).  File effects of the set layer (writing
config.ini, flushing the bitmap) are recorded by instrumentation fields
cfg_writes / last_cfg_written / bm_flushes; the set layer model assumes
the underlying I/O succeeds (I/O failure is modelled at the bitmap layer
above, and at fault-in via FaultOutcome). -/

/-- struct hlld_set from set.h, with instrumentation for its file
effects. -/
structure hlld_set where
  set_name : String
  set_config : hlld_set_config
  is_proxied : Bool
  is_dirty : Bool
  hll_est : Nat
  counters_sets : Nat
  counters_page_ins : Nat
  counters_page_outs : Nat
  cfg_writes : Nat
  last_cfg_written : Option hlld_set_config
  bm_flushes : Nat
deriving DecidableEq

/-- Outcome of a fault-in attempt for a proxied set, abstracting the
file system: loads (an existing register file is opened, the rebuilt
HLL reporting the given estimate), creates (no register file existed, a
fresh one is created — also the anonymous path for in-memory sets), or
fails with a nonzero error code. -/
inductive FaultOutcome where
  | loads : Nat → FaultOutcome
  | creates : FaultOutcome
  | fails : Int → FaultOutcome
deriving DecidableEq

/-- hset_size from set.c: the live estimate when resident, the persisted
config size when proxied. -/
def hset_size (set : hlld_set) : Nat :=
  if set.is_proxied = false then set.hll_est else set.set_config.size

/-- thread_safe_fault from set.c: a no-op when already resident; on
success the set becomes resident and page_ins is incremented exactly
when an existing register file was opened; on failure the set is left
unchanged and the error propagates. -/
def thread_safe_fault (outcome : FaultOutcome) (s : hlld_set) : Int × hlld_set :=
  if s.is_proxied = false then (0, s)
  else
    match outcome with
    | FaultOutcome.loads est =>
      (0, { s with is_proxied := false, hll_est := est,
                   counters_page_ins := s.counters_page_ins + 1 })
    | FaultOutcome.creates =>
      (0, { s with is_proxied := false, hll_est := 0 })
    | FaultOutcome.fails e => (e, s)

/-- hset_flush from set.c: a no-op returning 0 when proxied or not
dirty; otherwise stores the current estimate into set_config.size,
writes config.ini, clears the dirty flag, and flushes the bitmap unless
the set is in-memory. -/
def hset_flush (s : hlld_set) : Int × hlld_set :=
  if s.is_proxied then (0, s)
  else if s.is_dirty = false then (0, s)
  else
    let cfg := { s.set_config with size := hset_size s }
    let s1 := { s with set_config := cfg,
                       cfg_writes := s.cfg_writes + 1,
                       last_cfg_written := some cfg,
                       is_dirty := false }
    if cfg.in_memory ≠ 0 then (0, s1)
    else (0, { s1 with bm_flushes := s1.bm_flushes + 1 })

/-- hset_close from set.c: when resident, flush, destroy the HLL,
release the bitmap, mark proxied, increment page_outs; a no-op when
already proxied. -/
def hset_close (s : hlld_set) : Int × hlld_set :=
  if s.is_proxied = false then
    let s1 := (hset_flush s).2
    (0, { s1 with is_proxied := true,
                  counters_page_outs := s1.counters_page_outs + 1 })
  else (0, s)

/-- hset_add from set.c: fault in when proxied (returning -1 if the
fault fails, with the set unchanged); then hash the key, add the hash
to the HLL (est being the estimate the HLL reports afterwards),
increment counters.sets, and mark the set dirty. -/
def hset_add (outcome : FaultOutcome) (est : Nat) (s : hlld_set) :
    Int × hlld_set :=
  if s.is_proxied then
    let faulted := thread_safe_fault outcome s
    if faulted.1 ≠ 0 then (-1, s)
    else
      (0, { faulted.2 with hll_est := est,
                           counters_sets := faulted.2.counters_sets + 1,
                           is_dirty := true })
  else
    (0, { s with hll_est := est,
                 counters_sets := s.counters_sets + 1,
                 is_dirty := true })

/-- The subset of the global configuration that the set layer copies
into a fresh set (init_set in set.c). -/
structure MgrConfig where
  default_eps : ℚ
  default_precision : Int
  in_memory : Int
deriving DecidableEq

/-- init_set from set.c, for a fresh set directory (the on-disk
config.ini read is absent; this is the situation in every scenario the
claims build, including re-creation after a vacuumed delete which
removed the directory): copy the per-set config from the global one,
start proxied and dirty, fault in immediately when discover is set
(creating a fresh register file), and trigger a first flush. -/
def init_set (config : MgrConfig) (set_name : String) (discover : Bool) :
    hlld_set :=
  let base : hlld_set :=
    { set_name := set_name
      set_config := { default_eps := config.default_eps
                      default_precision := config.default_precision
                      in_memory := config.in_memory
                      size := 0 }
      is_proxied := true
      is_dirty := true
      hll_est := 0
      counters_sets := 0
      counters_page_ins := 0
      counters_page_outs := 0
      cfg_writes := 0
      last_cfg_written := none
      bm_flushes := 0 }
  let s := if discover then (thread_safe_fault FaultOutcome.creates base).2
           else base
  (hset_flush s).2

/-- hset_is_proxied from set.c. -/
def hset_is_proxied (set : hlld_set) : Bool := set.is_proxied

/-! ## Set manager (src/set_manager.c)

The manager is modelled in the single-threaded embedded configuration
the repository's own tests use (init_set_manager with vacuum disabled,
setmgr_vacuum driven explicitly); this is also the setting of the
claims.  Wrappers (hlld_set_wrapper) are heap objects shared by pointer
between the two ART trees and the delta log; they are modelled as a
store (a list indexed by wrapper id) so that aliasing — e.g. a drop
marking inactive the same wrapper a pending Create delta points to — is
represented faithfully.  The ART trees are association lists from set
name to wrapper id; ART key iteration order is abstracted as the list
order (no claim depends on the lexicographic order of names). -/

/-- struct hlld_set_wrapper from set_manager.c. -/
structure hlld_set_wrapper where
  is_active : Bool
  is_hot : Bool
  should_delete : Bool
  set : hlld_set
deriving DecidableEq

/-- The delta_type enum from set_manager.c. -/
inductive delta_type where
  | CREATE : delta_type
  | DELETE : delta_type
  | BARRIER : delta_type
deriving DecidableEq

/-- One node of the delta log (struct set_list): a version, a type, and
the id of the affected wrapper (unused for BARRIER nodes, whose set
pointer is NULL in C; 0 here). -/
structure set_list_entry where
  vsn : Nat
  type : delta_type
  wid : Nat
deriving DecidableEq

/-- An ART tree, abstracted as an association list name → wrapper id. -/
abbrev ArtTree := List (String × Nat)

/-- art_search: the value stored under a key, if any. -/
def art_search (t : ArtTree) (set_name : String) : Option Nat :=
  (t.find? (fun kv => kv.1 = set_name)).map (fun kv => kv.2)

/-- art_insert: replace the binding in place if the key is present,
otherwise append (iteration order is abstract, see above). -/
def art_insert (t : ArtTree) (set_name : String) (wid : Nat) : ArtTree :=
  if t.any (fun kv => kv.1 = set_name) then
    t.map (fun kv => if kv.1 = set_name then (kv.1, wid) else kv)
  else t ++ [(set_name, wid)]

/-- art_delete: remove the binding for a key. -/
def art_delete (t : ArtTree) (set_name : String) : ArtTree :=
  t.filter (fun kv => kv.1 ≠ set_name)

/-- struct hlld_setmgr, restricted to the state the claims touch.  The
clients list is empty in the embedded configuration (no checkpointing
thread), so it is omitted. -/
structure hlld_setmgr where
  config : MgrConfig
  vsn : Nat
  primary_vsn : Nat
  set_map : ArtTree
  alt_set_map : ArtTree
  pending_deletes : List String
  delta : List set_list_entry
  wstore : List hlld_set_wrapper
deriving DecidableEq

/-- The name of the set a delta entry's wrapper refers to, when the id
resolves (it always does for states built by the operations). -/
def wrapper_name (ws : List hlld_set_wrapper) (wid : Nat) : Option String :=
  (ws[wid]?).map (fun w => w.set.set_name)

/-- The delta-walk half of find_set: scan newest-first, return the first
non-barrier entry whose wrapper has the searched name, and do not seek
past the entry with vsn = primary_vsn + 1. -/
def find_set_delta (ws : List hlld_set_wrapper) (pvsn : Nat)
    (set_name : String) : List set_list_entry → Option Nat
  | [] => none
  | e :: rest =>
    if e.type ≠ delta_type.BARRIER ∧ wrapper_name ws e.wid = some set_name then
      some e.wid
    else if e.vsn = pvsn + 1 then none
    else find_set_delta ws pvsn set_name rest

/-- find_set from set_manager.c: search the primary tree, then (when the
primary does not yet incorporate every delta) the delta log. -/
def find_set (mgr : hlld_setmgr) (set_name : String) : Option Nat :=
  match art_search mgr.set_map set_name with
  | some wid => some wid
  | none =>
    if mgr.primary_vsn = mgr.vsn then none
    else find_set_delta mgr.wstore mgr.primary_vsn set_name mgr.delta

/-- take_set from set_manager.c: find_set, hiding inactive wrappers. -/
def take_set (mgr : hlld_setmgr) (set_name : String) : Option Nat :=
  match find_set mgr set_name with
  | some wid =>
    match mgr.wstore[wid]? with
    | some w => if w.is_active then some wid else none
    | none => none
  | none => none

/-- create_delta_update from set_manager.c: bump the version and push a
new delta node at the head of the log. -/
def create_delta_update (mgr : hlld_setmgr) (type : delta_type) (wid : Nat) :
    hlld_setmgr :=
  { mgr with vsn := mgr.vsn + 1,
             delta := ⟨mgr.vsn + 1, type, wid⟩ :: mgr.delta }

/-- add_set from set_manager.c: build a wrapper around a fresh set
(discovered exactly when hot) and either push a Create delta or insert
directly into the primary tree (the latter only during boot discovery). -/
def add_set (mgr : hlld_setmgr) (set_name : String) (config : MgrConfig)
    (is_hot : Bool) (delta : Bool) : hlld_setmgr :=
  let w : hlld_set_wrapper :=
    { is_active := true
      is_hot := is_hot
      should_delete := false
      set := init_set config set_name is_hot }
  let wid := mgr.wstore.length
  let mgr1 := { mgr with wstore := mgr.wstore ++ [w] }
  if delta then create_delta_update mgr1 delta_type.CREATE wid
  else { mgr1 with set_map := art_insert mgr1.set_map set_name wid }

/-- setmgr_create_set from set_manager.c: -1 when an active wrapper of
that name is found, -3 when an inactive one is found or the name is on
the pending-delete list, otherwise add the set (hot, as a delta) and
return 0.  (init_set succeeds in this model, so the -2 internal-error
branch is not taken.) -/
def setmgr_create_set (mgr : hlld_setmgr) (set_name : String)
    (custom_config : Option MgrConfig) : Int × hlld_setmgr :=
  match find_set mgr set_name with
  | some wid =>
    match mgr.wstore[wid]? with
    | some w => (if w.is_active then -1 else -3, mgr)
    | none => (-3, mgr)
  | none =>
    if set_name ∈ mgr.pending_deletes then (-3, mgr)
    else
      let config := custom_config.getD mgr.config
      (0, add_set mgr set_name config true true)

/-- setmgr_drop_set from set_manager.c: take the set (-1 when absent),
mark it inactive and to-be-deleted, and push a Delete delta. -/
def setmgr_drop_set (mgr : hlld_setmgr) (set_name : String) :
    Int × hlld_setmgr :=
  match take_set mgr set_name with
  | none => (-1, mgr)
  | some wid =>
    match mgr.wstore[wid]? with
    | none => (0, create_delta_update mgr delta_type.DELETE wid)
    | some w =>
      let w1 := { w with is_active := false, should_delete := true }
      let mgr1 := { mgr with wstore := mgr.wstore.set wid w1 }
      (0, create_delta_update mgr1 delta_type.DELETE wid)

/-- setmgr_unmap_set from set_manager.c: take the set (-1 when absent);
bail out returning 0 when the set is in-memory only; otherwise close the
underlying set and return 0. -/
def setmgr_unmap_set (mgr : hlld_setmgr) (set_name : String) :
    Int × hlld_setmgr :=
  match take_set mgr set_name with
  | none => (-1, mgr)
  | some wid =>
    match mgr.wstore[wid]? with
    | none => (0, mgr)
    | some w =>
      if w.set.set_config.in_memory ≠ 0 then (0, mgr)
      else
        let closed := (hset_close w.set).2
        (0, { mgr with wstore := mgr.wstore.set wid { w with set := closed } })

/-- setmgr_set_keys from set_manager.c: take the set (-1 when absent),
hset_add each key in order stopping at the first failure, mark the
wrapper hot, and return 0 (or -2 when an add failed).  Each key is
given as the abstract estimate the HLL reports after its hash is added;
outcome describes the fault-in performed by the first add when the set
is proxied. -/
def setmgr_set_keys (mgr : hlld_setmgr) (set_name : String)
    (outcome : FaultOutcome) (keys : List Nat) : Int × hlld_setmgr :=
  match take_set mgr set_name with
  | none => (-1, mgr)
  | some wid =>
    match mgr.wstore[wid]? with
    | none => (0, mgr)
    | some w =>
      let step := keys.foldl
        (fun (acc : Int × hlld_set) est =>
          if acc.1 ≠ 0 then acc else hset_add outcome est acc.2)
        (0, w.set)
      let w1 := { w with is_hot := true, set := step.2 }
      let mgr1 := { mgr with wstore := mgr.wstore.set wid w1 }
      (if step.1 = -1 then -2 else 0, mgr1)

/-- Whether a name passes the optional prefix filter of
setmgr_list_sets (strncmp over prefix_len characters; no prefix means
everything matches). -/
def pfxOk (pfx : Option String) (set_name : String) : Bool :=
  match pfx with
  | none => true
  | some p => p.isPrefixOf set_name

/-- set_map_list_cb from set_manager.c, as the (possibly empty) batch of
names it appends for one tree entry: the key is emitted unless the
wrapper is inactive. -/
def set_map_list_cb (ws : List hlld_set_wrapper) (key : String) (wid : Nat) :
    List String :=
  match ws[wid]? with
  | some w => if w.is_active then [key] else []
  | none => []

/-- The loop body of setmgr_list_sets for one delta node: a Create
entry whose wrapper name passes the prefix filter is handed to
set_map_list_cb under that name; anything else emits nothing. -/
def delta_emit (ws : List hlld_set_wrapper) (pfx : Option String)
    (e : set_list_entry) : List String :=
  if e.type = delta_type.CREATE then
    match wrapper_name ws e.wid with
    | some n => if pfxOk pfx n then set_map_list_cb ws n e.wid else []
    | none => []
  else []

/-- The delta-log walk of setmgr_list_sets: emit (through
set_map_list_cb, under the wrapper's own name) every Create entry
passing the prefix filter, stopping after the entry with
vsn = primary_vsn + 1. -/
def list_sets_delta (ws : List hlld_set_wrapper) (pvsn : Nat)
    (pfx : Option String) : List set_list_entry → List String
  | [] => []
  | e :: rest =>
    delta_emit ws pfx e ++
      (if e.vsn = pvsn + 1 then [] else list_sets_delta ws pvsn pfx rest)

/-- setmgr_list_sets from set_manager.c: walk the primary tree emitting
active entries that pass the prefix filter, then (unless the primary
already incorporates every delta) walk the delta log. -/
def setmgr_list_sets (mgr : hlld_setmgr) (pfx : Option String) : List String :=
  let primary := mgr.set_map.foldl
    (fun acc kv =>
      if pfxOk pfx kv.1 then acc ++ set_map_list_cb mgr.wstore kv.1 kv.2
      else acc) []
  if mgr.primary_vsn = mgr.vsn then primary
  else primary ++ list_sets_delta mgr.wstore mgr.primary_vsn pfx mgr.delta

/-- setmgr_list_cold_sets from set_manager.c: walk the primary tree; a
hot wrapper has its hot flag cleared and is skipped, a proxied set is
skipped, anything else is prepended to the output.  Deltas are ignored.
Returns the names together with the manager, whose hot flags the walk
mutates. -/
def setmgr_list_cold_sets (mgr : hlld_setmgr) : List String × hlld_setmgr :=
  let out := mgr.set_map.foldl
    (fun (acc : List String × List hlld_set_wrapper) kv =>
      match acc.2[kv.2]? with
      | none => acc
      | some w =>
        if w.is_hot then
          (acc.1, acc.2.set kv.2 { w with is_hot := false })
        else if hset_is_proxied w.set then acc
        else (kv.1 :: acc.1, acc.2))
    ([], mgr.wstore)
  (out.1, { mgr with wstore := out.2 })

/-- merge_old_versions from set_manager.c: apply, oldest first, every
delta with vsn at most min_vsn to the given tree (Create inserts the
wrapper's name, Delete removes it, Barrier is ignored). -/
def merge_old_versions (ws : List hlld_set_wrapper) (min_vsn : Nat) :
    List set_list_entry → ArtTree → ArtTree
  | [], t => t
  | e :: rest, t =>
    let t1 := merge_old_versions ws min_vsn rest t
    if min_vsn < e.vsn then t1
    else
      match e.type with
      | delta_type.CREATE =>
        match wrapper_name ws e.wid with
        | some n => art_insert t1 n e.wid
        | none => t1
      | delta_type.DELETE =>
        match wrapper_name ws e.wid with
        | some n => art_delete t1 n
        | none => t1
      | delta_type.BARRIER => t1

/-- delete_set from set_manager.c, as its effect on the wrapper store:
the underlying set is deleted from disk (which closes it first) or
merely closed, per should_delete; the wrapper itself is freed in C and
remains only as an unreferenced ghost here. -/
def delete_set_effect (ws : List hlld_set_wrapper) (wid : Nat) :
    List hlld_set_wrapper :=
  match ws[wid]? with
  | none => ws
  | some w => ws.set wid { w with set := (hset_close w.set).2 }

/-- remove_delta_versions + delete_old_versions from set_manager.c: chop
the delta log at the first entry with vsn at most min_vsn; every removed
Delete entry has its wrapper cleaned up via delete_set. -/
def delete_old_versions (mgr : hlld_setmgr) (min_vsn : Nat) : hlld_setmgr :=
  let kept := mgr.delta.takeWhile (fun e => min_vsn < e.vsn)
  let removed := mgr.delta.dropWhile (fun e => min_vsn < e.vsn)
  let ws := removed.foldl
    (fun ws e => if e.type = delta_type.DELETE then delete_set_effect ws e.wid
                 else ws)
    mgr.wstore
  { mgr with delta := kept, wstore := ws }

/-- setmgr_vacuum from set_manager.c: merge every outstanding delta into
the alternate tree, swap the trees setting primary_vsn, merge into the
other tree as well, then delete the old versions. -/
def setmgr_vacuum (mgr : hlld_setmgr) : hlld_setmgr :=
  let vsn := mgr.vsn
  let merged_alt := merge_old_versions mgr.wstore vsn mgr.delta mgr.alt_set_map
  let mgr1 := { mgr with set_map := merged_alt, alt_set_map := mgr.set_map,
                         primary_vsn := vsn }
  let merged_other :=
    merge_old_versions mgr1.wstore vsn mgr1.delta mgr1.alt_set_map
  delete_old_versions { mgr1 with alt_set_map := merged_other } vsn

/-- init_set_manager from set_manager.c over an empty data directory
(no sets to discover): both trees empty, version counters 0. -/
def init_set_manager (config : MgrConfig) : hlld_setmgr :=
  { config := config
    vsn := 0
    primary_vsn := 0
    set_map := []
    alt_set_map := []
    pending_deletes := []
    delta := []
    wstore := [] }

/-! ## Theorems -/

/-- ratRound agrees with Mathlib's round on the rationals. -/
theorem ratRound_eq_round (q : ℚ) : ratRound q = round q := by
  rw [round_eq, ratRound]
  have key : q + 1 / 2
      = ((2 * q.num + (q.den : Int) : Int) : ℚ) / ((2 * q.den : ℕ) : ℚ) := by
    have hden : ((q.den : ℚ)) ≠ 0 := by
      exact_mod_cast q.den_nz
    conv_lhs => rw [← Rat.num_div_den q]
    push_cast
    field_simp
    ring
  rw [key, Rat.floor_intCast_div_natCast]
  push_cast
  rfl

/-- Evaluation rule for ratRound from two rational inequalities. -/
theorem ratRound_spec (q : ℚ) (n : ℤ) (h1 : (n : ℚ) ≤ q + 1 / 2)
    (h2 : q + 1 / 2 < (n : ℚ) + 1) : ratRound q = n := by
  rw [ratRound_eq_round, round_eq, Int.floor_eq_iff.mpr ⟨h1, h2⟩]

/-- Evaluation rule for round6 from two rational inequalities. -/
theorem round6_spec (q : ℚ) (n : ℤ) (h1 : (n : ℚ) ≤ q * 1000000 + 1 / 2)
    (h2 : q * 1000000 + 1 / 2 < (n : ℚ) + 1) :
    round6 q = (n : ℚ) / 1000000 := by
  rw [round6, ratRound_spec (q * 1000000) n h1 h2]

/-- A successful prec_search result is the least precision, at or after
the starting one, whose error bound is at most the requested error. -/
theorem prec_search_found (err : ℚ) :
    ∀ (fuel : Nat) (p : Int), 0 ≤ p → prec_search err fuel p ≠ -1 →
      p ≤ prec_search err fuel p ∧
      prec_search err fuel p < p + fuel ∧
      hll_error_sq_for_precision (prec_search err fuel p) ≤ err ^ 2 ∧
      (∀ r : Int, p ≤ r → r < prec_search err fuel p →
        ¬ hll_error_sq_for_precision r ≤ err ^ 2) := by
  intro fuel
  induction fuel with
  | zero =>
    intro p hp h
    exact absurd rfl h
  | succ n ih =>
    intro p hp h
    rw [prec_search] at h ⊢
    by_cases hc : hll_error_sq_for_precision p ≤ err ^ 2
    · rw [if_pos hc] at h ⊢
      exact ⟨le_refl p, by omega, hc, fun r hr1 hr2 => absurd hr1 (by omega)⟩
    · rw [if_neg hc] at h ⊢
      obtain ⟨ha, hb, hcc, hd⟩ := ih (p + 1) (by omega) h
      refine ⟨by omega, by omega, hcc, fun r hr1 hr2 => ?_⟩
      rcases eq_or_lt_of_le hr1 with hr | hr
      · rw [← hr]; exact hc
      · exact hd r (by omega) hr2

/-- prec_search does not fail when some precision in its scan range
achieves the requested error. -/
theorem prec_search_hits (err : ℚ) :
    ∀ (fuel : Nat) (p r : Int), 0 ≤ p → p ≤ r → r < p + fuel →
      hll_error_sq_for_precision r ≤ err ^ 2 →
      prec_search err fuel p ≠ -1 := by
  intro fuel
  induction fuel with
  | zero =>
    intro p r hp h1 h2 h3
    omega
  | succ n ih =>
    intro p r hp h1 h2 h3
    rw [prec_search]
    by_cases hc : hll_error_sq_for_precision p ≤ err ^ 2
    · rw [if_pos hc]; omega
    · rw [if_neg hc]
      have hr : r ≠ p := fun h => hc (h ▸ h3)
      exact ih (p + 1) r (by omega) (by omega) (by omega) h3

/-- Claim C9.  For every in-range requested epsilon e (positive, below
1, achievable within the precision range), processing the default_eps
parameter yields default_precision = precision_for_error(e) — the least
precision in [4, 18] whose error bound is at most e — and stores as
default_eps the achievable bound error_for_precision(default_precision)
(represented by its square), which is at most e^2 while every smaller
in-range precision exceeds it; so the stored epsilon is the achievable
upper bound, not the requested one. -/
theorem claim_C9_eps_snapping (e : ℚ) (h0 : 0 < e) (h1 : e < 1)
    (hach : hll_error_sq_for_precision 18 ≤ e ^ 2) :
    (config_callback_default_eps e).1 = hll_precision_for_error e ∧
    4 ≤ (config_callback_default_eps e).1 ∧
    (config_callback_default_eps e).1 ≤ 18 ∧
    (config_callback_default_eps e).2
      = hll_error_sq_for_precision (config_callback_default_eps e).1 ∧
    (config_callback_default_eps e).2 ≤ e ^ 2 ∧
    (∀ q : Int, 4 ≤ q → q < (config_callback_default_eps e).1 →
      e ^ 2 < hll_error_sq_for_precision q) := by
  have hne : ¬ (e ≤ 0 ∨ 1 ≤ e) := by push_neg; exact ⟨h0, h1⟩
  have hp : hll_precision_for_error e = prec_search e 15 4 := by
    rw [hll_precision_for_error, if_neg hne]
  have hnotfail : prec_search e 15 4 ≠ -1 :=
    prec_search_hits e 15 4 18 (by norm_num) (by norm_num) (by norm_num) hach
  obtain ⟨ha, hb, hc, hd⟩ := prec_search_found e 15 4 (by norm_num) hnotfail
  have h1eq : (config_callback_default_eps e).1 = prec_search e 15 4 := by
    rw [config_callback_default_eps, hp]
  refine ⟨by rw [config_callback_default_eps], ?_, ?_, ?_, ?_, ?_⟩
  · rw [h1eq]; exact ha
  · rw [h1eq]; omega
  · rw [config_callback_default_eps]
  · rw [show (config_callback_default_eps e).2
        = hll_error_sq_for_precision (prec_search e 15 4) by
          rw [config_callback_default_eps, hp]]
    exact hc
  · intro q hq1 hq2
    rw [h1eq] at hq2
    exact lt_of_not_le (hd q hq1 hq2)

/-- Witness for claim_C9_eps_snapping at the requested epsilon 0.05
(scenario S6): the hypotheses hold, the snapped precision is 9, and the
stored epsilon squared is within 10^-9 of 0.045961941^2 — the value the
spec quotes as the snapped epsilon. -/
theorem claim_C9_eps_snapping_witness :
    ((0 : ℚ) < 1 / 20 ∧ (1 / 20 : ℚ) < 1 ∧
      hll_error_sq_for_precision 18 ≤ (1 / 20 : ℚ) ^ 2) ∧
    (config_callback_default_eps (1 / 20)).1 = 9 ∧
    |((45961941 : ℚ) / 1000000000) ^ 2 - (config_callback_default_eps (1 / 20)).2|
      < 1 / 10 ^ 9 := by
  have hach : hll_error_sq_for_precision 18 ≤ (1 / 20 : ℚ) ^ 2 := by
    rw [hll_error_sq_for_precision, if_pos (by norm_num)]
    norm_num
  obtain ⟨-, h4, h18, heq, hle, hmin⟩ :=
    claim_C9_eps_snapping (1 / 20) (by norm_num) (by norm_num) hach
  have hp9 : (config_callback_default_eps (1 / 20 : ℚ)).1 = 9 := by
    rcases lt_trichotomy ((config_callback_default_eps (1 / 20 : ℚ)).1) 9 with hlt | h | hgt
    · exfalso
      rw [heq] at hle
      set p := (config_callback_default_eps (1 / 20 : ℚ)).1 with hpdef
      interval_cases p <;>
        · rw [hll_error_sq_for_precision, if_pos (by norm_num)] at hle
          norm_num at hle
    · exact h
    · exfalso
      have h9 := hmin 9 (by norm_num) hgt
      rw [hll_error_sq_for_precision, if_pos (by norm_num)] at h9
      norm_num at h9
  refine ⟨⟨by norm_num, by norm_num, hach⟩, hp9, ?_⟩
  rw [heq, hp9, hll_error_sq_for_precision, if_pos (by norm_num)]
  rw [abs_sub_lt_iff]
  constructor <;> norm_num

/-- Claim C4 (code_bug evidence).  For a live PERSISTENT bitmap of 8192
bytes (two pages) whose first page write fails with EIO (= 5) while the
second page write and the fsync succeed, bitmap_flush returns 0 even
though none of the first 4096 buffer bytes was persisted: the loop in
flush_all_pages overwrites the captured error with the result of the
final page, so the claim's guarantee — a negative return whenever any
page write fails, and full persistence on a 0 return — is violated by
the code. -/
theorem claim_C4_flush_error_swallowed :
    (bitmap_flush ⟨bitmap_mode.PERSISTENT, 8192, true⟩ ⟨[-5, 4096], none, none⟩).1
      = 0 ∧
    ¬ chunk_covers
      (bitmap_flush ⟨bitmap_mode.PERSISTENT, 8192, true⟩
        ⟨[-5, 4096], none, none⟩).2 0 := by
  decide

/-- Claim C8 (counterexample).  Opening a path in create mode over an
existing file of size 5 with len = 0 fails with the SizeMismatch code
-1, not with -EINVAL = -22 as the claim's "whenever len == 0" requires:
the create-mode size check runs before the len check of
bitmap_from_file. -/
theorem claim_C8_counterexample :
    (bitmap_from_filename (some 5) 0 true bitmap_mode.PERSISTENT okOpenEnv).1
      = -1 ∧ (-1 : Int) ≠ -22 := by
  decide

/-- Claim C8 (amended).  bitmap_from_file fails with -EINVAL whenever
len = 0; bitmap_from_filename with len = 0 and a successful open also
fails with -EINVAL except in create mode over an existing file of
non-zero size, where the SizeMismatch check fires first and returns -1;
and the create-mode discipline holds: an existing file of non-zero size
different from len makes the call return -1 with the file unmodified,
the file is never resized unless it was (or was just created) empty,
and an empty file is truncated to len (being unlinked again if the
mapping then fails). -/
theorem claim_C8_bitmap_open_amended (len : Nat) (file : Option Nat)
    (create : Bool) (mode : bitmap_mode) (env : OpenEnv)
    (hopen : env.open_errno = none) :
    (∀ (nb : Bool) (m : bitmap_mode) (e : OpenEnv),
        bitmap_from_file 0 nb m e = -22)
    ∧ (∀ s, file = some s → create = true → s ≠ 0 → s ≠ len →
        bitmap_from_filename file len create mode env = (-1, some s))
    ∧ (create = false ∨ (∃ s, file = some s ∧ s ≠ 0) →
        (bitmap_from_filename file len create mode env).2 = file)
    ∧ (create = true → file = some 0 →
        (bitmap_from_filename file len create mode env).2 = some len ∨
        (bitmap_from_filename file len create mode env).2 = none)
    ∧ (len = 0 → ¬(file = none ∧ create = false) →
        (∀ s, file = some s → create = true → s ≠ 0 →
            (bitmap_from_filename file len create mode env).1 = -1)
        ∧ ((file = none ∨ file = some 0 ∨ create = false) →
            (bitmap_from_filename file len create mode env).1 = -22)) := by
  refine ⟨?_, ?_, ?_, ?_, ?_⟩
  · intro nb m e
    simp [bitmap_from_file]
  · intro s hfile hcreate hs hlen
    subst hfile hcreate
    simp [bitmap_from_filename, hopen, hs, hlen]
  · intro h
    rcases h with h | ⟨s, hfile, hs⟩
    · subst h
      cases file with
      | none => simp [bitmap_from_filename, hopen]
      | some s => simp [bitmap_from_filename, hopen]
    · subst hfile
      by_cases hc : create = true
      · subst hc
        by_cases hlen : s = len
        · subst hlen
          simp [bitmap_from_filename, hopen, hs]
        · simp [bitmap_from_filename, hopen, hs, hlen]
      · replace hc : create = false := by
          cases create
          · rfl
          · exact absurd rfl hc
        subst hc
        simp [bitmap_from_filename, hopen]
  · intro hcreate hfile
    subst hcreate hfile
    by_cases hres : bitmap_from_file len true mode env ≠ 0
    · right; simp [bitmap_from_filename, hopen, hres]
    · left; simp [bitmap_from_filename, hopen, hres]
  · intro hlen hopen_ok
    subst hlen
    constructor
    · intro s hfile hcreate hs
      subst hfile hcreate
      simp [bitmap_from_filename, hopen, hs]
    · intro hcase
      rcases hcase with h | h | h
      · subst h
        have hc : create = true := by
          cases create
          · exact absurd ⟨rfl, rfl⟩ hopen_ok
          · rfl
        subst hc
        simp [bitmap_from_filename, bitmap_from_file, hopen]
      · subst h
        by_cases hc : create = true
        · subst hc
          simp [bitmap_from_filename, bitmap_from_file, hopen]
        · replace hc : create = false := by
            cases create
            · rfl
            · exact absurd rfl hc
          subst hc
          simp [bitmap_from_filename, bitmap_from_file, hopen]
      · subst h
        cases file with
        | none => exact absurd ⟨rfl, rfl⟩ hopen_ok
        | some s =>
          by_cases hs : s = 0
          · subst hs
            simp [bitmap_from_filename, bitmap_from_file, hopen]
          · simp [bitmap_from_filename, bitmap_from_file, hopen, hs]

/-- Witness for claim_C8_bitmap_open_amended: with every syscall
succeeding, creating over an existing 5-byte file with a requested
length of 3 fails with SizeMismatch -1 and leaves the file at 5 bytes. -/
theorem claim_C8_bitmap_open_amended_witness :
    okOpenEnv.open_errno = none ∧
    bitmap_from_filename (some 5) 3 true bitmap_mode.PERSISTENT okOpenEnv
      = (-1, some 5) :=
  ⟨rfl,
    (claim_C8_bitmap_open_amended 3 (some 5) true bitmap_mode.PERSISTENT
      okOpenEnv rfl).2.1 5 rfl rfl (by decide) (by decide)⟩

/-- Claim C3 (counterexample).  The per-set configuration with
default_eps = 0.01234567 (and size 4096, precision 12, in_memory 1)
does not survive the write/re-read round trip: fprintf "%f" renders the
epsilon with six fraction digits as 0.012346, so the re-read record
differs from the original. -/
theorem claim_C3_counterexample :
    set_config_from_filename
      (update_filename_from_set_config ⟨1234567 / 100000000, 12, 1, 4096⟩)
      zeroSetConfig
      ≠ ⟨1234567 / 100000000, 12, 1, 4096⟩ := by
  have hr : round6 ((1234567 : ℚ) / 100000000) = 6173 / 500000 := by
    rw [round6_spec ((1234567 : ℚ) / 100000000) 12346 (by norm_num) (by norm_num)]
    norm_num
  intro h
  have he := congrArg hlld_set_config.default_eps h
  simp only [set_config_from_filename, update_filename_from_set_config,
             value_to_double, hr] at he
  norm_num at he

/-- Claim C3 (amended).  Writing a per-set configuration record and
re-reading the file reproduces default_precision and in_memory exactly,
and size exactly whenever it is below 2^63 (strtoll saturates above);
default_eps comes back as its value rounded to six fraction digits —
exact precisely when the stored double already equals that rounding. -/
theorem claim_C3_roundtrip_amended (c c0 : hlld_set_config)
    (hsize : c.size < 2 ^ 63) (heps : round6 c.default_eps ≠ 0) :
    set_config_from_filename (update_filename_from_set_config c) c0
      = { c with default_eps := round6 c.default_eps } := by
  have hmin : min c.size (2 ^ 63 - 1) = c.size := by omega
  simp only [set_config_from_filename, update_filename_from_set_config,
        value_to_int64, value_to_double, hmin, if_neg heps]

/-- Witness for claim_C3_roundtrip_amended at the configuration the
repository's own test uses (eps 0.01625 = 13/800, which has six or
fewer fraction digits, so the round trip is exact there). -/
theorem claim_C3_roundtrip_amended_witness :
    ((4096 : Nat) < 2 ^ 63 ∧ round6 (13 / 800) ≠ 0) ∧
    set_config_from_filename
      (update_filename_from_set_config ⟨13 / 800, 12, 1, 4096⟩) zeroSetConfig
      = ⟨13 / 800, 12, 1, 4096⟩ := by
  have hr : round6 ((13 : ℚ) / 800) = 13 / 800 := by
    rw [round6_spec ((13 : ℚ) / 800) 16250 (by norm_num) (by norm_num)]
    norm_num
  have heps : round6 ((⟨13 / 800, 12, 1, 4096⟩ : hlld_set_config).default_eps) ≠ 0 := by
    rw [show (⟨13 / 800, 12, 1, 4096⟩ : hlld_set_config).default_eps
          = (13 : ℚ) / 800 from rfl, hr]
    norm_num
  refine ⟨⟨by norm_num, by rw [hr]; norm_num⟩, ?_⟩
  have h := claim_C3_roundtrip_amended ⟨13 / 800, 12, 1, 4096⟩ zeroSetConfig
    (by norm_num) heps
  rw [h]
  show hlld_set_config.mk (round6 ((13 : ℚ) / 800)) 12 1 4096 = ⟨13 / 800, 12, 1, 4096⟩
  rw [hr]

/-- Claim C5.  hset_flush is a no-op returning 0 when the set is proxied
or not dirty; otherwise it returns 0, writes the current estimate
hset_size into set_config.size, persists config.ini (one more config
write, recording exactly the new config), clears the dirty flag, and
flushes the bitmap exactly when the set is not in-memory. -/
theorem claim_C5_hset_flush (s : hlld_set) :
    (s.is_proxied = true ∨ s.is_dirty = false → hset_flush s = (0, s)) ∧
    (s.is_proxied = false → s.is_dirty = true →
      (hset_flush s).1 = 0 ∧
      (hset_flush s).2.set_config.size = hset_size s ∧
      (hset_flush s).2.cfg_writes = s.cfg_writes + 1 ∧
      (hset_flush s).2.last_cfg_written = some (hset_flush s).2.set_config ∧
      (hset_flush s).2.is_dirty = false ∧
      (s.set_config.in_memory = 0 →
        (hset_flush s).2.bm_flushes = s.bm_flushes + 1) ∧
      (s.set_config.in_memory ≠ 0 →
        (hset_flush s).2.bm_flushes = s.bm_flushes)) := by
  constructor
  · intro h
    rcases h with h | h
    · rw [hset_flush, if_pos h]
    · rw [hset_flush]
      by_cases hp : s.is_proxied
      · rw [if_pos hp]
      · rw [if_neg hp, if_pos h]
  · intro hp hd
    rw [hset_flush, if_neg (by simp [hp]), if_neg (by simp [hd])]
    by_cases hm : s.set_config.in_memory ≠ 0
    · rw [if_pos hm]
      exact ⟨rfl, rfl, rfl, rfl, rfl, fun h => absurd h hm, fun _ => rfl⟩
    · rw [if_neg hm]
      exact ⟨rfl, rfl, rfl, rfl, rfl, fun _ => rfl, fun h => absurd h hm⟩

/-- Witness for claim_C5_hset_flush: a proxied set flushes to itself
with result 0, and a resident dirty file-backed set gets its estimate 5
written into the config, one config write, the dirty flag cleared, and
one bitmap flush. -/
theorem claim_C5_hset_flush_witness :
    (hset_flush ⟨"a", ⟨0, 12, 0, 7⟩, true, true, 0, 0, 0, 0, 0, none, 0⟩
      = (0, ⟨"a", ⟨0, 12, 0, 7⟩, true, true, 0, 0, 0, 0, 0, none, 0⟩)) ∧
    ((hset_flush ⟨"b", ⟨0, 12, 0, 7⟩, false, true, 5, 2, 1, 0, 1, none, 1⟩).1 = 0 ∧
     (hset_flush ⟨"b", ⟨0, 12, 0, 7⟩, false, true, 5, 2, 1, 0, 1, none, 1⟩).2.set_config.size
       = hset_size ⟨"b", ⟨0, 12, 0, 7⟩, false, true, 5, 2, 1, 0, 1, none, 1⟩ ∧
     (hset_flush ⟨"b", ⟨0, 12, 0, 7⟩, false, true, 5, 2, 1, 0, 1, none, 1⟩).2.cfg_writes = 2 ∧
     (hset_flush ⟨"b", ⟨0, 12, 0, 7⟩, false, true, 5, 2, 1, 0, 1, none, 1⟩).2.is_dirty = false ∧
     (hset_flush ⟨"b", ⟨0, 12, 0, 7⟩, false, true, 5, 2, 1, 0, 1, none, 1⟩).2.bm_flushes = 2) := by
  have hA := (claim_C5_hset_flush
    ⟨"a", ⟨0, 12, 0, 7⟩, true, true, 0, 0, 0, 0, 0, none, 0⟩).1 (Or.inl rfl)
  have hB := (claim_C5_hset_flush
    ⟨"b", ⟨0, 12, 0, 7⟩, false, true, 5, 2, 1, 0, 1, none, 1⟩).2 rfl rfl
  exact ⟨hA, hB.1, hB.2.1, hB.2.2.1, hB.2.2.2.2.1, hB.2.2.2.2.2.1 rfl⟩

/-- Claim C10.  hset_add is atomic on failure: for a proxied set whose
fault-in fails (a fails outcome with a nonzero code), it returns -1 with
the set completely unchanged — still proxied, counters.sets and the
dirty flag untouched; and every hset_add returning 0 increments
counters.sets by exactly one and sets the dirty flag. -/
theorem claim_C10_hset_add_atomic (s : hlld_set) (outcome : FaultOutcome)
    (est : Nat) :
    (∀ e : Int, s.is_proxied = true → outcome = FaultOutcome.fails e →
      e ≠ 0 → hset_add outcome est s = (-1, s)) ∧
    (∀ r : hlld_set, hset_add outcome est s = (0, r) →
      r.counters_sets = s.counters_sets + 1 ∧ r.is_dirty = true) := by
  constructor
  · intro e hp hout he
    subst hout
    simp [hset_add, thread_safe_fault, hp, he]
  · intro r hr
    cases hps : s.is_proxied with
    | false =>
      simp only [hset_add, hps, Bool.false_eq_true, if_false] at hr
      rw [Prod.ext_iff] at hr
      obtain ⟨-, hr2⟩ := hr
      subst hr2
      exact ⟨rfl, rfl⟩
    | true =>
      cases outcome with
      | loads est' =>
        simp only [hset_add, thread_safe_fault, hps, if_true,
          Bool.true_eq_false, if_false, ne_eq, not_true_eq_false,
          not_false_eq_true] at hr
        rw [Prod.ext_iff] at hr
        obtain ⟨-, hr2⟩ := hr
        subst hr2
        exact ⟨rfl, rfl⟩
      | creates =>
        simp only [hset_add, thread_safe_fault, hps, if_true,
          Bool.true_eq_false, if_false, ne_eq, not_true_eq_false,
          not_false_eq_true] at hr
        rw [Prod.ext_iff] at hr
        obtain ⟨-, hr2⟩ := hr
        subst hr2
        exact ⟨rfl, rfl⟩
      | fails e =>
        simp only [hset_add, thread_safe_fault, hps, if_true,
          Bool.true_eq_false, if_false] at hr
        by_cases he : e = 0
        · subst he
          simp only [ne_eq, not_true_eq_false, not_false_eq_true] at hr
          rw [Prod.ext_iff] at hr
          obtain ⟨-, hr2⟩ := hr
          subst hr2
          exact ⟨rfl, rfl⟩
        · rw [if_pos (by simpa using he)] at hr
          rw [Prod.ext_iff] at hr
          exact absurd hr.1 (by norm_num)

/-- Witness for claim_C10_hset_add_atomic: a proxied set with a failing
fault-in (code -5) is returned unchanged with -1; a resident set accepts
the add, going from 2 to 3 recorded sets with the dirty flag set. -/
theorem claim_C10_hset_add_atomic_witness :
    hset_add (FaultOutcome.fails (-5)) 1
        ⟨"a", ⟨0, 12, 0, 7⟩, true, true, 0, 0, 0, 0, 0, none, 0⟩
      = (-1, ⟨"a", ⟨0, 12, 0, 7⟩, true, true, 0, 0, 0, 0, 0, none, 0⟩) ∧
    ((hset_add FaultOutcome.creates 9
        ⟨"b", ⟨0, 12, 0, 7⟩, false, false, 5, 2, 1, 0, 1, none, 1⟩).2.counters_sets = 3 ∧
     (hset_add FaultOutcome.creates 9
        ⟨"b", ⟨0, 12, 0, 7⟩, false, false, 5, 2, 1, 0, 1, none, 1⟩).2.is_dirty = true) := by
  have hA := (claim_C10_hset_add_atomic
    ⟨"a", ⟨0, 12, 0, 7⟩, true, true, 0, 0, 0, 0, 0, none, 0⟩
    (FaultOutcome.fails (-5)) 1).1 (-5) rfl rfl (by norm_num)
  have hB := (claim_C10_hset_add_atomic
    ⟨"b", ⟨0, 12, 0, 7⟩, false, false, 5, 2, 1, 0, 1, none, 1⟩
    FaultOutcome.creates 9).2
    (hset_add FaultOutcome.creates 9
      ⟨"b", ⟨0, 12, 0, 7⟩, false, false, 5, 2, 1, 0, 1, none, 1⟩).2 rfl
  exact ⟨hA, hB.1, hB.2⟩

/-- hset_flush does not change the set's name, residency, or counters. -/
theorem hset_flush_preserves (s : hlld_set) :
    (hset_flush s).2.set_name = s.set_name ∧
    (hset_flush s).2.is_proxied = s.is_proxied ∧
    (hset_flush s).2.counters_sets = s.counters_sets ∧
    (hset_flush s).2.counters_page_ins = s.counters_page_ins ∧
    (hset_flush s).2.counters_page_outs = s.counters_page_outs := by
  simp only [hset_flush]
  split_ifs <;> exact ⟨rfl, rfl, rfl, rfl, rfl⟩

/-- An in-memory manager state with one resident set named m: create on
a fresh manager whose global config has in_memory = 1; creation faults
the set in, so it is resident. -/
def mgrMemScenario : hlld_setmgr :=
  (setmgr_create_set (init_set_manager ⟨0, 12, 1⟩) "m" none).2

/-- A file-backed manager state with one resident set named f. -/
def mgrFileScenario : hlld_setmgr :=
  (setmgr_create_set (init_set_manager ⟨0, 12, 0⟩) "f" none).2

/-- Claim C7 (counterexample).  For the in-memory resident set m,
setmgr_unmap_set returns 0 but the set is afterwards still resident
(is_proxied = false) with page_outs = 0: the code bails out before
hset_close for sets configured with in_memory, contradicting the
claim's "afterwards proxied ... page_outs incremented by one; this
holds for every set, including sets configured with in_memory = true". -/
theorem claim_C7_counterexample :
    (mgrMemScenario.wstore[0]?).map
        (fun w => (w.set.is_proxied, w.set.set_config.in_memory))
      = some (false, 1) ∧
    (setmgr_unmap_set mgrMemScenario "m").1 = 0 ∧
    ((setmgr_unmap_set mgrMemScenario "m").2.wstore[0]?).map
        (fun w => (w.set.is_proxied, w.set.counters_page_outs))
      = some (false, 0) :=
  ⟨rfl, rfl, rfl⟩

/-- Claim C7 (amended).  For every set found by take (active),
setmgr_unmap_set returns 0; for a set configured with in_memory it
does nothing (the manager state is unchanged); for a file-backed set
that was resident, the set is afterwards proxied with its page_outs
counter incremented by one. -/
theorem claim_C7_unmap_amended (mgr : hlld_setmgr) (set_name : String)
    (wid : Nat) (w : hlld_set_wrapper)
    (htake : take_set mgr set_name = some wid)
    (hget : mgr.wstore[wid]? = some w) :
    (setmgr_unmap_set mgr set_name).1 = 0 ∧
    (w.set.set_config.in_memory ≠ 0 →
      (setmgr_unmap_set mgr set_name).2 = mgr) ∧
    (w.set.set_config.in_memory = 0 → w.set.is_proxied = false →
      ((setmgr_unmap_set mgr set_name).2.wstore[wid]?).map
          (fun w' => (w'.set.is_proxied, w'.set.counters_page_outs))
        = some (true, w.set.counters_page_outs + 1)) := by
  have hwid : wid < mgr.wstore.length := by
    rcases List.getElem?_eq_some.mp hget with ⟨h, -⟩
    exact h
  simp only [setmgr_unmap_set, htake, hget]
  by_cases hm : w.set.set_config.in_memory = 0
  · rw [if_neg (by simpa using hm)]
    refine ⟨rfl, fun h => absurd hm h, fun _ hres => ?_⟩
    rw [List.getElem?_set_self hwid]
    have hcl := hset_flush_preserves w.set
    simp only [Option.map_some, hset_close, if_pos hres]
    rw [hcl.2.2.2.2]
    rfl
  · rw [if_pos hm]
    exact ⟨rfl, fun _ => rfl, fun h => absurd h hm⟩

/-- Witness for claim_C7_unmap_amended on the file-backed resident set
f: unmapping proxies it and bumps page_outs from 0 to 1. -/
theorem claim_C7_unmap_amended_witness :
    take_set mgrFileScenario "f" = some 0 ∧
    ((setmgr_unmap_set mgrFileScenario "f").2.wstore[0]?).map
        (fun w' => (w'.set.is_proxied, w'.set.counters_page_outs))
      = some (true, 1) := by
  refine ⟨rfl, ?_⟩
  have h := claim_C7_unmap_amended mgrFileScenario "f" 0
    ⟨true, true, false,
      ⟨"f", ⟨0, 12, 0, 0⟩, false, false, 0, 0, 0, 0, 1, some ⟨0, 12, 0, 0⟩, 1⟩⟩
    rfl rfl
  exact h.2.2 rfl rfl

/-- The cold-sweep scenario of claim C6 on a fresh file-backed manager:
create hot, create cold, vacuum, add a key to hot. -/
def coldMgr1 : hlld_setmgr :=
  (setmgr_create_set (init_set_manager ⟨0, 12, 0⟩) "hot" none).2

def coldMgr2 : hlld_setmgr := (setmgr_create_set coldMgr1 "cold" none).2

def coldMgr3 : hlld_setmgr := setmgr_vacuum coldMgr2

def coldMgr4 : hlld_setmgr :=
  (setmgr_set_keys coldMgr3 "hot" FaultOutcome.creates [1]).2

/-- Claim C6 (counterexample).  After create(hot), create(cold),
vacuum(), add_keys(hot, [x]) — all succeeding — list_cold() returns [],
not [cold]: both sets are still marked hot from their creation, and the
sweep clears their hot flags and skips them. -/
theorem claim_C6_counterexample :
    (setmgr_create_set (init_set_manager ⟨0, 12, 0⟩) "hot" none).1 = 0 ∧
    (setmgr_create_set coldMgr1 "cold" none).1 = 0 ∧
    (setmgr_set_keys coldMgr3 "hot" FaultOutcome.creates [1]).1 = 0 ∧
    (setmgr_list_cold_sets coldMgr4).1 = [] ∧
    ([] : List String) ≠ ["cold"] :=
  ⟨rfl, rfl, rfl, rfl, by decide⟩

/-- Claim C6 (amended).  In the scenario create(hot); create(cold);
vacuum(), a first list_cold() returns [] — newly created sets are hot
and the sweep clears their hot flags — and after add_keys(hot, [x])
re-marks hot, a second list_cold() returns exactly [cold].  (This is
the sequence the repository's own test test_mgr_list_cold checks.) -/
theorem claim_C6_cold_sweep_amended :
    (setmgr_list_cold_sets coldMgr3).1 = [] ∧
    (setmgr_list_cold_sets
      (setmgr_set_keys (setmgr_list_cold_sets coldMgr3).2 "hot"
        FaultOutcome.creates [1]).2).1 = ["cold"] :=
  ⟨rfl, rfl⟩

/-- Deleting a key from an ART tree makes searching for it fail. -/
theorem art_search_art_delete_self (t : ArtTree) (n : String) :
    art_search (art_delete t n) n = none := by
  rw [art_search, art_delete]
  have h : (t.filter (fun kv => kv.1 ≠ n)).find? (fun kv => kv.1 = n) = none := by
    rw [List.find?_eq_none]
    intro kv hkv
    have hmem := List.of_mem_filter hkv
    simp only [ne_eq, decide_not, Bool.not_eq_eq_eq_not, Bool.not_true,
      decide_eq_false_iff_not] at hmem
    simpa using hmem
  rw [h]
  rfl

/-- A fresh set keeps the name it was created with. -/
theorem init_set_set_name (config : MgrConfig) (n : String) (d : Bool) :
    (init_set config n d).set_name = n := by
  simp only [init_set]
  rw [(hset_flush_preserves _).1]
  cases d
  · rfl
  · rfl

/-- Shape of the manager state after a successful create(name) followed
by a successful drop(name): on entry the name was findable nowhere and
not pending, and afterwards the state carries the original store plus
one inactive to-be-deleted wrapper for the name, with a Delete and a
Create delta on top of the original log. -/
theorem create_drop_shape (s s1 s2 : hlld_setmgr) (name : String)
    (hpv : s.primary_vsn ≤ s.vsn)
    (hc : setmgr_create_set s name none = (0, s1))
    (hd : setmgr_drop_set s1 name = (0, s2)) :
    art_search s.set_map name = none ∧
    find_set s name = none ∧
    name ∉ s.pending_deletes ∧
    s2 = { s with
           wstore := s.wstore ++
             [(⟨false, true, true, init_set s.config name true⟩ : hlld_set_wrapper)]
           vsn := s.vsn + 2
           delta := ⟨s.vsn + 2, delta_type.DELETE, s.wstore.length⟩ ::
             ⟨s.vsn + 1, delta_type.CREATE, s.wstore.length⟩ :: s.delta } := by
  -- Unpack the successful create: the name was visible nowhere.
  have hfind : find_set s name = none := by
    cases hf : find_set s name with
    | none => rfl
    | some wid =>
      simp only [setmgr_create_set, hf] at hc
      cases hget : s.wstore[wid]? with
      | none =>
        simp only [hget] at hc
        exact absurd (congrArg Prod.fst hc) (by norm_num)
      | some w =>
        simp only [hget] at hc
        have h1 := congrArg Prod.fst hc
        by_cases ha : w.is_active = true
        · rw [if_pos ha] at h1
          exact absurd h1 (by norm_num)
        · rw [if_neg ha] at h1
          exact absurd h1 (by norm_num)
  have hsearch : art_search s.set_map name = none := by
    cases hs : art_search s.set_map name with
    | none => rfl
    | some wid =>
      simp only [find_set, hs] at hfind
      simp at hfind
  simp only [setmgr_create_set, hfind] at hc
  by_cases hpend : name ∈ s.pending_deletes
  · rw [if_pos hpend] at hc
    exact absurd (congrArg Prod.fst hc) (by norm_num)
  rw [if_neg hpend] at hc
  simp only [Option.getD_none] at hc
  have hs1 : s1 = add_set s name s.config true true := (Prod.ext_iff.mp hc).2.symm
  subst hs1
  -- Normal form of the state after the create.
  have hadd : add_set s name s.config true true
      = { s with
          wstore := s.wstore ++ [(⟨true, true, false, init_set s.config name true⟩ : hlld_set_wrapper)]
          vsn := s.vsn + 1
          delta := ⟨s.vsn + 1, delta_type.CREATE, s.wstore.length⟩ :: s.delta } := rfl
  rw [hadd] at hd
  have hw : (s.wstore ++ [(⟨true, true, false, init_set s.config name true⟩ :
      hlld_set_wrapper)])[s.wstore.length]?
      = some ⟨true, true, false, init_set s.config name true⟩ :=
    List.getElem?_concat_length _ _
  have hname : wrapper_name
      (s.wstore ++ [(⟨true, true, false, init_set s.config name true⟩ : hlld_set_wrapper)])
      s.wstore.length = some name := by
    rw [wrapper_name, hw]
    simp [init_set_set_name]
  -- The drop finds the freshly created wrapper through the delta log.
  have hfind1 : find_set
      { s with
        wstore := s.wstore ++ [(⟨true, true, false, init_set s.config name true⟩ : hlld_set_wrapper)]
        vsn := s.vsn + 1
        delta := ⟨s.vsn + 1, delta_type.CREATE, s.wstore.length⟩ :: s.delta }
      name = some s.wstore.length := by
    rw [find_set]
    simp only [hsearch]
    rw [if_neg (by omega : ¬ s.primary_vsn = s.vsn + 1)]
    simp [find_set_delta, hname]
  have htake1 : take_set
      { s with
        wstore := s.wstore ++ [(⟨true, true, false, init_set s.config name true⟩ : hlld_set_wrapper)]
        vsn := s.vsn + 1
        delta := ⟨s.vsn + 1, delta_type.CREATE, s.wstore.length⟩ :: s.delta }
      name = some s.wstore.length := by
    rw [take_set, hfind1]
    simp only [hw]
    rfl
  rw [setmgr_drop_set] at hd
  simp only [htake1, hw] at hd
  have hsetapp : (s.wstore ++
      [(⟨true, true, false, init_set s.config name true⟩ : hlld_set_wrapper)]).set
      s.wstore.length (⟨false, true, true, init_set s.config name true⟩ : hlld_set_wrapper)
      = s.wstore ++ [(⟨false, true, true, init_set s.config name true⟩ : hlld_set_wrapper)] := by
    simp
  rw [hsetapp] at hd
  have hs2 : s2
      = { s with
          wstore := s.wstore ++
            [(⟨false, true, true, init_set s.config name true⟩ : hlld_set_wrapper)]
          vsn := s.vsn + 2
          delta := ⟨s.vsn + 2, delta_type.DELETE, s.wstore.length⟩ ::
            ⟨s.vsn + 1, delta_type.CREATE, s.wstore.length⟩ :: s.delta } :=
    (Prod.ext_iff.mp hd).2.symm
  exact ⟨hsearch, hfind, hpend, hs2⟩

/-- Claim C1.  In any manager with primary_vsn at most vsn, after a
successful create(name) followed by a successful drop(name), a further
create(name) issued before the vacuum has reclaimed the entry returns
DeleteInProgress (-3), and a create(name) issued after setmgr_vacuum()
has run returns Ok (0). -/
theorem claim_C1_delete_blocks_recreate (s s1 s2 : hlld_setmgr) (name : String)
    (hpv : s.primary_vsn ≤ s.vsn)
    (hc : setmgr_create_set s name none = (0, s1))
    (hd : setmgr_drop_set s1 name = (0, s2)) :
    (setmgr_create_set s2 name none).1 = -3 ∧
    (setmgr_create_set (setmgr_vacuum s2) name none).1 = 0 := by
  obtain ⟨hsearch, hfind, hpend, hs2⟩ := create_drop_shape s s1 s2 name hpv hc hd
  subst hs2
  have hw2 : (s.wstore ++ [(⟨false, true, true, init_set s.config name true⟩ :
      hlld_set_wrapper)])[s.wstore.length]?
      = some ⟨false, true, true, init_set s.config name true⟩ :=
    List.getElem?_concat_length _ _
  have hname2 : wrapper_name
      (s.wstore ++ [(⟨false, true, true, init_set s.config name true⟩ :
        hlld_set_wrapper)])
      s.wstore.length = some name := by
    rw [wrapper_name, hw2]
    simp [init_set_set_name]
  -- The recreate before the vacuum sees the inactive wrapper: -3.
  have hfind2 : find_set
      { s with
        wstore := s.wstore ++
          [(⟨false, true, true, init_set s.config name true⟩ : hlld_set_wrapper)]
        vsn := s.vsn + 2
        delta := ⟨s.vsn + 2, delta_type.DELETE, s.wstore.length⟩ ::
          ⟨s.vsn + 1, delta_type.CREATE, s.wstore.length⟩ :: s.delta }
      name = some s.wstore.length := by
    rw [find_set]
    simp only [hsearch]
    rw [if_neg (by omega : ¬ s.primary_vsn = s.vsn + 2)]
    rw [find_set_delta]
    rw [if_pos (And.intro (by simp) hname2)]
  constructor
  · simp only [setmgr_create_set, hfind2, hw2]
    rfl
  · -- After the vacuum the Create/Delete pair has collapsed to absence.
    rw [setmgr_create_set]
    have hsv : art_search (setmgr_vacuum
        { s with
          wstore := s.wstore ++
            [(⟨false, true, true, init_set s.config name true⟩ : hlld_set_wrapper)]
          vsn := s.vsn + 2
          delta := ⟨s.vsn + 2, delta_type.DELETE, s.wstore.length⟩ ::
            ⟨s.vsn + 1, delta_type.CREATE, s.wstore.length⟩ :: s.delta }).set_map
        name = none := by
      show art_search (merge_old_versions _ (s.vsn + 2)
        (⟨s.vsn + 2, delta_type.DELETE, s.wstore.length⟩ ::
          ⟨s.vsn + 1, delta_type.CREATE, s.wstore.length⟩ :: s.delta) _) name = none
      rw [merge_old_versions]
      rw [if_neg (by omega : ¬ s.vsn + 2 < s.vsn + 2)]
      simp only [hname2]
      rw [art_search_art_delete_self]
    have hfindv : find_set (setmgr_vacuum
        { s with
          wstore := s.wstore ++
            [(⟨false, true, true, init_set s.config name true⟩ : hlld_set_wrapper)]
          vsn := s.vsn + 2
          delta := ⟨s.vsn + 2, delta_type.DELETE, s.wstore.length⟩ ::
            ⟨s.vsn + 1, delta_type.CREATE, s.wstore.length⟩ :: s.delta })
        name = none := by
      rw [find_set]
      simp only [hsv]
      have hpveq : (setmgr_vacuum
          { s with
            wstore := s.wstore ++
              [(⟨false, true, true, init_set s.config name true⟩ : hlld_set_wrapper)]
            vsn := s.vsn + 2
            delta := ⟨s.vsn + 2, delta_type.DELETE, s.wstore.length⟩ ::
              ⟨s.vsn + 1, delta_type.CREATE, s.wstore.length⟩ :: s.delta }).primary_vsn
          = (setmgr_vacuum
          { s with
            wstore := s.wstore ++
              [(⟨false, true, true, init_set s.config name true⟩ : hlld_set_wrapper)]
            vsn := s.vsn + 2
            delta := ⟨s.vsn + 2, delta_type.DELETE, s.wstore.length⟩ ::
              ⟨s.vsn + 1, delta_type.CREATE, s.wstore.length⟩ :: s.delta }).vsn := rfl
      rw [if_pos hpveq]
    simp only [hfindv]
    rw [if_neg (by exact hpend : ¬ name ∈ (setmgr_vacuum _).pending_deletes)]

/-- Fresh manager states for the witness of claim C1: create x, then
drop x. -/
def c1Mgr0 : hlld_setmgr := init_set_manager ⟨0, 12, 0⟩

def c1Mgr1 : hlld_setmgr := (setmgr_create_set c1Mgr0 "x" none).2

def c1Mgr2 : hlld_setmgr := (setmgr_drop_set c1Mgr1 "x").2

/-- Witness for claim_C1_delete_blocks_recreate on a fresh manager:
after create(x) and drop(x), create(x) yields -3, and after
setmgr_vacuum it yields 0. -/
theorem claim_C1_delete_blocks_recreate_witness :
    c1Mgr0.primary_vsn ≤ c1Mgr0.vsn ∧
    (setmgr_create_set c1Mgr2 "x" none).1 = -3 ∧
    (setmgr_create_set (setmgr_vacuum c1Mgr2) "x" none).1 = 0 := by
  have h := claim_C1_delete_blocks_recreate c1Mgr0 c1Mgr1 c1Mgr2 "x"
    (by decide) rfl rfl
  exact ⟨by decide, h.1, h.2⟩

/-- A wrapper id counts as active when it resolves to an active
wrapper. -/
def active_wid (ws : List hlld_set_wrapper) (wid : Nat) : Prop :=
  ∃ w, ws[wid]? = some w ∧ w.is_active = true

/-- Membership in the output of set_map_list_cb: the key is emitted
exactly when its wrapper is active. -/
theorem set_map_list_cb_mem (ws : List hlld_set_wrapper) (key : String)
    (wid : Nat) (name : String) :
    name ∈ set_map_list_cb ws key wid ↔ name = key ∧ active_wid ws wid := by
  rw [set_map_list_cb, active_wid]
  cases hw : ws[wid]? with
  | none => simp
  | some w =>
    cases ha : w.is_active with
    | true => simp [ha]
    | false => simp [ha]

/-- Evaluation of delta_emit when the wrapper name resolves. -/
theorem delta_emit_eq_some (ws : List hlld_set_wrapper) (pfx : Option String)
    (e : set_list_entry) (n : String) (ht : e.type = delta_type.CREATE)
    (hn : wrapper_name ws e.wid = some n) :
    delta_emit ws pfx e
      = if pfxOk pfx n then set_map_list_cb ws n e.wid else [] := by
  rw [delta_emit, if_pos ht, hn]

/-- Evaluation of delta_emit when the wrapper name does not resolve. -/
theorem delta_emit_eq_none (ws : List hlld_set_wrapper) (pfx : Option String)
    (e : set_list_entry) (hn : wrapper_name ws e.wid = none) :
    delta_emit ws pfx e = [] := by
  rw [delta_emit, hn]
  split_ifs <;> rfl

/-- Evaluation of delta_emit on a non-Create node. -/
theorem delta_emit_not_create (ws : List hlld_set_wrapper)
    (pfx : Option String) (e : set_list_entry)
    (ht : ¬ e.type = delta_type.CREATE) : delta_emit ws pfx e = [] := by
  rw [delta_emit, if_neg ht]

/-- Membership in the emission of one delta node. -/
theorem delta_emit_mem (ws : List hlld_set_wrapper) (pfx : Option String)
    (e : set_list_entry) (name : String) :
    name ∈ delta_emit ws pfx e ↔
      e.type = delta_type.CREATE ∧ wrapper_name ws e.wid = some name ∧
      pfxOk pfx name = true ∧ active_wid ws e.wid := by
  by_cases ht : e.type = delta_type.CREATE
  · cases hn : wrapper_name ws e.wid with
    | none =>
      rw [delta_emit_eq_none ws pfx e hn]
      simp [hn]
    | some n =>
      rw [delta_emit_eq_some ws pfx e n ht hn]
      by_cases hp : pfxOk pfx n
      · rw [if_pos hp, set_map_list_cb_mem]
        constructor
        · rintro ⟨rfl, hact⟩
          exact ⟨ht, rfl, hp, hact⟩
        · rintro ⟨-, hsome, -, hact⟩
          obtain rfl : n = name := Option.some.inj hsome
          exact ⟨rfl, hact⟩
      · rw [if_neg hp]
        simp only [List.not_mem_nil, false_iff]
        rintro ⟨-, hsome, hpname, -⟩
        obtain rfl : n = name := Option.some.inj hsome
        exact hp hpname
  · rw [delta_emit_not_create ws pfx e ht]
    simp [ht]

/-- Membership in the primary-tree part of setmgr_list_sets, stated for
the foldl with an arbitrary accumulator. -/
theorem list_sets_primary_mem (ws : List hlld_set_wrapper)
    (pfx : Option String) :
    ∀ (l : List (String × Nat)) (acc : List String) (name : String),
      name ∈ l.foldl
        (fun acc kv =>
          if pfxOk pfx kv.1 then acc ++ set_map_list_cb ws kv.1 kv.2 else acc)
        acc ↔
      name ∈ acc ∨ ∃ wid, (name, wid) ∈ l ∧ pfxOk pfx name = true ∧
        active_wid ws wid := by
  intro l
  induction l with
  | nil => simp
  | cons kv rest ih =>
    obtain ⟨k1, k2⟩ := kv
    intro acc name
    rw [List.foldl_cons]
    by_cases hp : pfxOk pfx k1
    · rw [if_pos hp, ih]
      simp only [List.mem_append, set_map_list_cb_mem, List.mem_cons,
        Prod.mk.injEq]
      constructor
      · rintro ((h | ⟨rfl, hact⟩) | ⟨wid, hmem, hpn, hact⟩)
        · exact Or.inl h
        · exact Or.inr ⟨k2, Or.inl ⟨rfl, rfl⟩, hp, hact⟩
        · exact Or.inr ⟨wid, Or.inr hmem, hpn, hact⟩
      · rintro (h | ⟨wid, ⟨rfl, rfl⟩ | hmem, hpn, hact⟩)
        · exact Or.inl (Or.inl h)
        · exact Or.inl (Or.inr ⟨rfl, hact⟩)
        · exact Or.inr ⟨wid, hmem, hpn, hact⟩
    · rw [if_neg hp, ih]
      simp only [List.mem_cons, Prod.mk.injEq]
      constructor
      · rintro (h | ⟨wid, hmem, hpn, hact⟩)
        · exact Or.inl h
        · exact Or.inr ⟨wid, Or.inr hmem, hpn, hact⟩
      · rintro (h | ⟨wid, ⟨rfl, rfl⟩ | hmem, hpn, hact⟩)
        · exact Or.inl h
        · exact absurd hpn hp
        · exact Or.inr ⟨wid, hmem, hpn, hact⟩

/-- In a strictly decreasing delta log whose oldest entry sits at
pvsn + 1, a head already at pvsn + 1 forces an empty tail. -/
theorem wf_tail_nil (pvsn : Nat) (e : set_list_entry)
    (rest : List set_list_entry)
    (hdec : (e :: rest).Pairwise (fun a b => b.vsn < a.vsn))
    (hlast : ∀ g, (e :: rest).getLast? = some g → g.vsn = pvsn + 1)
    (hb : e.vsn = pvsn + 1) : rest = [] := by
  cases rest with
  | nil => rfl
  | cons f fs =>
    exfalso
    obtain ⟨g, hg⟩ : ∃ g, (f :: fs).getLast? = some g := by
      cases hgl : (f :: fs).getLast? with
      | none => rw [List.getLast?_eq_none_iff] at hgl; cases hgl
      | some g => exact ⟨g, rfl⟩
    have hgv : g.vsn = pvsn + 1 := by
      apply hlast
      rw [List.getLast?_cons_cons]
      exact hg
    have hgm : g ∈ f :: fs := List.mem_of_getLast?_eq_some hg
    have hf1 : f.vsn < e.vsn := (List.pairwise_cons.mp hdec).1 f (by simp)
    have hf4 : ∀ h ∈ fs, h.vsn < f.vsn :=
      (List.pairwise_cons.mp (List.pairwise_cons.mp hdec).2).1
    rcases List.mem_cons.mp hgm with rfl | hgfs
    · omega
    · have := hf4 _ hgfs
      omega

/-- Under a well-formed delta log (versions strictly decreasing, all
above primary_vsn, the oldest at primary_vsn + 1), the walk of
setmgr_list_sets visits every node: a name appears in its output
exactly when some delta node emits it. -/
theorem list_sets_delta_mem (ws : List hlld_set_wrapper) (pvsn : Nat)
    (pfx : Option String) :
    ∀ (l : List set_list_entry),
      l.Pairwise (fun a b => b.vsn < a.vsn) →
      (∀ g, l.getLast? = some g → g.vsn = pvsn + 1) →
      ∀ name, name ∈ list_sets_delta ws pvsn pfx l ↔
        ∃ e ∈ l, name ∈ delta_emit ws pfx e := by
  intro l
  induction l with
  | nil => simp [list_sets_delta]
  | cons e rest ih =>
    intro hdec hlast name
    rw [list_sets_delta]
    by_cases hb : e.vsn = pvsn + 1
    · rw [if_pos hb]
      have hrest : rest = [] := wf_tail_nil pvsn e rest hdec hlast hb
      subst hrest
      simp
    · rw [if_neg hb]
      have hdec' := (List.pairwise_cons.mp hdec).2
      have hlast' : ∀ g, rest.getLast? = some g → g.vsn = pvsn + 1 := by
        intro g hg
        apply hlast
        cases rest with
        | nil => simp at hg
        | cons f fs => rw [List.getLast?_cons_cons]; exact hg
      rw [List.mem_append, ih hdec' hlast' name]
      simp

/-- Under a well-formed delta log, a failed find walk means no
non-barrier node anywhere in the log carries the searched name. -/
theorem find_set_delta_none_all (ws : List hlld_set_wrapper) (pvsn : Nat)
    (name : String) :
    ∀ (l : List set_list_entry),
      l.Pairwise (fun a b => b.vsn < a.vsn) →
      (∀ g, l.getLast? = some g → g.vsn = pvsn + 1) →
      find_set_delta ws pvsn name l = none →
      ∀ e ∈ l, e.type ≠ delta_type.BARRIER →
        wrapper_name ws e.wid ≠ some name := by
  intro l
  induction l with
  | nil =>
    intro _ _ _ e he
    simp at he
  | cons e rest ih =>
    intro hdec hlast hnone f hf hbar
    rw [find_set_delta] at hnone
    by_cases hcond : f.type ≠ delta_type.BARRIER ∧
        wrapper_name ws f.wid = some name
    · exfalso
      rcases List.mem_cons.mp hf with rfl | hfr
      · rw [if_pos hcond] at hnone
        cases hnone
      · by_cases hcondE : e.type ≠ delta_type.BARRIER ∧
            wrapper_name ws e.wid = some name
        · rw [if_pos hcondE] at hnone
          cases hnone
        · rw [if_neg hcondE] at hnone
          by_cases hb : e.vsn = pvsn + 1
          · have := wf_tail_nil pvsn e rest hdec hlast hb
            rw [this] at hfr
            simp at hfr
          · rw [if_neg hb] at hnone
            have hlast' : ∀ g, rest.getLast? = some g → g.vsn = pvsn + 1 := by
              intro g hg
              apply hlast
              cases rest with
              | nil => simp at hg
              | cons r rs => rw [List.getLast?_cons_cons]; exact hg
            exact ih (List.pairwise_cons.mp hdec).2 hlast' hnone f hfr
              hcond.1 hcond.2
    · intro hw
      exact hcond ⟨hbar, hw⟩

/-- A failed ART search means the key is bound to nothing. -/
theorem art_search_none_not_mem (t : ArtTree) (n : String)
    (h : art_search t n = none) : ∀ v, (n, v) ∉ t := by
  intro v hmem
  rw [art_search] at h
  cases hf : t.find? (fun kv => kv.1 = n) with
  | some kv => rw [hf] at h; cases h
  | none =>
    have := List.find?_eq_none.mp hf _ hmem
    simp at this

/-- wrapper_name looks left of an append for in-range ids. -/
theorem wrapper_name_append_left (ws : List hlld_set_wrapper)
    (w : hlld_set_wrapper) (wid : Nat) (h : wid < ws.length) :
    wrapper_name (ws ++ [w]) wid = wrapper_name ws wid := by
  rw [wrapper_name, wrapper_name, List.getElem?_append_left h]

/-- Well-formedness of the embedded manager state, as maintained by the
operations between vacuum runs: the delta log is newest-first with
strictly decreasing versions, every unapplied delta is newer than the
primary snapshot and no newer than the current version, the oldest
unapplied delta sits immediately above the primary version, and an
empty log means the primary is current. -/
structure SetMgrWF (mgr : hlld_setmgr) : Prop where
  ordered : mgr.delta.Pairwise (fun a b => b.vsn < a.vsn)
  above : ∀ e ∈ mgr.delta, mgr.primary_vsn < e.vsn
  within : ∀ e ∈ mgr.delta, e.vsn ≤ mgr.vsn
  oldest : ∀ g, mgr.delta.getLast? = some g → g.vsn = mgr.primary_vsn + 1
  applied : mgr.delta = [] → mgr.primary_vsn = mgr.vsn

/-- A well-formed manager has primary_vsn at most vsn. -/
theorem SetMgrWF.pv_le (mgr : hlld_setmgr) (h : SetMgrWF mgr) :
    mgr.primary_vsn ≤ mgr.vsn := by
  cases hd : mgr.delta with
  | nil => exact le_of_eq (h.applied hd)
  | cons e rest =>
    have h1 := h.above e (by rw [hd]; simp)
    have h2 := h.within e (by rw [hd]; simp)
    omega

/-- A well-formed manager with primary_vsn = vsn has no unapplied
deltas. -/
theorem SetMgrWF.delta_nil (mgr : hlld_setmgr) (h : SetMgrWF mgr)
    (heq : mgr.primary_vsn = mgr.vsn) : mgr.delta = [] := by
  cases hd : mgr.delta with
  | nil => rfl
  | cons e rest =>
    have h1 := h.above e (by rw [hd]; simp)
    have h2 := h.within e (by rw [hd]; simp)
    omega

/-- Claim C2.  For every well-formed manager, setmgr_list_sets returns
exactly the active sets: a name is in the output precisely when it is
an active entry of the primary snapshot matching the optional prefix,
or the name of an active (not subsequently retired) Create delta with
vsn above primary_vsn matching the prefix; and in particular, for a set
whose Create and later Delete both lie in the unapplied delta log — as
after a successful create(name) followed by drop(name) — the name does
not appear in the output of list. -/
theorem claim_C2_list_exact (mgr : hlld_setmgr) (hwf : SetMgrWF mgr)
    (pfx : Option String) :
    (∀ name, name ∈ setmgr_list_sets mgr pfx ↔
      ((∃ wid, (name, wid) ∈ mgr.set_map ∧ pfxOk pfx name = true ∧
          active_wid mgr.wstore wid) ∨
       (∃ e, e ∈ mgr.delta ∧ e.type = delta_type.CREATE ∧
          mgr.primary_vsn < e.vsn ∧
          wrapper_name mgr.wstore e.wid = some name ∧
          pfxOk pfx name = true ∧ active_wid mgr.wstore e.wid)))
    ∧ (∀ (name : String) (s1 s2 : hlld_setmgr),
        setmgr_create_set mgr name none = (0, s1) →
        setmgr_drop_set s1 name = (0, s2) →
        name ∉ setmgr_list_sets s2 pfx) := by
  constructor
  · intro name
    by_cases hpe : mgr.primary_vsn = mgr.vsn
    · have hde : mgr.delta = [] := SetMgrWF.delta_nil mgr hwf hpe
      simp only [setmgr_list_sets, if_pos hpe]
      rw [list_sets_primary_mem]
      simp [hde]
    · simp only [setmgr_list_sets, if_neg hpe]
      rw [List.mem_append, list_sets_primary_mem,
        list_sets_delta_mem mgr.wstore mgr.primary_vsn pfx mgr.delta
          hwf.ordered hwf.oldest]
      simp only [delta_emit_mem, List.not_mem_nil, false_or]
      constructor
      · rintro (h | ⟨e, he, ht, hn, hp, ha⟩)
        · exact Or.inl h
        · exact Or.inr ⟨e, he, ht, hwf.above e he, hn, hp, ha⟩
      · rintro (h | ⟨e, he, ht, -, hn, hp, ha⟩)
        · exact Or.inl h
        · exact Or.inr ⟨e, he, ht, hn, hp, ha⟩
  · intro name s1 s2 hc hd
    obtain ⟨hsearch, hfind, hpend, hs2⟩ :=
      create_drop_shape mgr s1 s2 name (SetMgrWF.pv_le mgr hwf) hc hd
    subst hs2
    intro hmem
    have hpvle := SetMgrWF.pv_le mgr hwf
    simp only [setmgr_list_sets] at hmem
    rw [if_neg (by omega : ¬ mgr.primary_vsn = mgr.vsn + 2)] at hmem
    rcases List.mem_append.mp hmem with hprim | hdelta
    · rw [list_sets_primary_mem] at hprim
      rcases hprim with h | ⟨wid, hmemmap, -, -⟩
      · simp at h
      · exact art_search_none_not_mem _ _ hsearch wid hmemmap
    · have hdecD : (⟨mgr.vsn + 2, delta_type.DELETE, mgr.wstore.length⟩ ::
          ⟨mgr.vsn + 1, delta_type.CREATE, mgr.wstore.length⟩ ::
          mgr.delta).Pairwise
          (fun a b : set_list_entry => b.vsn < a.vsn) := by
        rw [List.pairwise_cons]
        constructor
        · intro f hf
          rcases List.mem_cons.mp hf with rfl | hfr
          · simp
          · have := hwf.within f hfr
            simp only []
            omega
        · rw [List.pairwise_cons]
          constructor
          · intro f hf
            have := hwf.within f hf
            simp only []
            omega
          · exact hwf.ordered
      have hlastD : ∀ g, ((⟨mgr.vsn + 2, delta_type.DELETE, mgr.wstore.length⟩ ::
          ⟨mgr.vsn + 1, delta_type.CREATE, mgr.wstore.length⟩ ::
          mgr.delta) : List set_list_entry).getLast? = some g →
          g.vsn = mgr.primary_vsn + 1 := by
        intro g hg
        rw [List.getLast?_cons_cons] at hg
        cases hdm : mgr.delta with
        | nil =>
          rw [hdm] at hg
          have happ := hwf.applied hdm
          have hgC := Option.some.inj hg
          rw [← hgC]
          show mgr.vsn + 1 = mgr.primary_vsn + 1
          omega
        | cons f fs =>
          rw [hdm, List.getLast?_cons_cons] at hg
          exact hwf.oldest g (by rw [hdm]; exact hg)
      obtain ⟨e, he, hemit⟩ :=
        (list_sets_delta_mem _ mgr.primary_vsn pfx _ hdecD hlastD name).mp hdelta
      rw [delta_emit_mem] at hemit
      obtain ⟨ht, hn, hp, ha⟩ := hemit
      rcases List.mem_cons.mp he with rfl | he1
      · simp at ht
      rcases List.mem_cons.mp he1 with rfl | he2
      · obtain ⟨w, heq, hact⟩ := ha
        rw [show (⟨mgr.vsn + 1, delta_type.CREATE, mgr.wstore.length⟩ :
            set_list_entry).wid = mgr.wstore.length from rfl,
          List.getElem?_concat_length] at heq
        obtain rfl := Option.some.inj heq
        cases hact
      · by_cases hwid : e.wid < mgr.wstore.length
        · rw [wrapper_name_append_left _ _ _ hwid] at hn
          have hfd : find_set_delta mgr.wstore mgr.primary_vsn name mgr.delta
              = none := by
            by_cases hpe : mgr.primary_vsn = mgr.vsn
            · rw [SetMgrWF.delta_nil mgr hwf hpe]
              rfl
            · simp only [find_set, hsearch] at hfind
              rw [if_neg hpe] at hfind
              exact hfind
          exact find_set_delta_none_all mgr.wstore mgr.primary_vsn name
            mgr.delta hwf.ordered hwf.oldest hfd e he2
            (by rw [ht]; simp) hn
        · obtain ⟨w, heq, hact⟩ := ha
          by_cases heq2 : e.wid = mgr.wstore.length
          · rw [heq2, List.getElem?_concat_length] at heq
            obtain rfl := Option.some.inj heq
            cases hact
          · rw [List.getElem?_eq_none (by simp; omega)] at heq
            cases heq

/-- Witness for claim C2 on a fresh manager: after create(x) the name x
is listed (via the Create delta), and after create(x); drop(x) it is
not. -/
theorem claim_C2_list_exact_witness :
    "x" ∈ setmgr_list_sets c1Mgr1 none ∧
    "x" ∉ setmgr_list_sets c1Mgr2 none := by
  have hwf1 : SetMgrWF c1Mgr1 := by
    refine ⟨by decide, by decide, by decide, ?_, ?_⟩
    · intro g hg
      have hgv := Option.some.inj hg
      rw [← hgv]
      rfl
    · intro h
      exact absurd h (by decide)
  have hwf0 : SetMgrWF c1Mgr0 := by
    refine ⟨by decide, by decide, by decide, ?_, fun _ => rfl⟩
    intro g hg
    exact Option.noConfusion hg
  have h1 := claim_C2_list_exact c1Mgr1 hwf1 none
  have h0 := claim_C2_list_exact c1Mgr0 hwf0 none
  refine ⟨?_, h0.2 "x" c1Mgr1 c1Mgr2 rfl rfl⟩
  exact (h1.1 "x").mpr (Or.inr ⟨⟨1, delta_type.CREATE, 0⟩, by decide, rfl,
    by decide, rfl, rfl, ⟨_, rfl, rfl⟩⟩)

end Hlld
